import Mathlib

/-!
Verification of the drain-reconciliation controller of vitess-operator
(pkg/controller/vitessshardreplication/reconcile_drain.go).

The Go source is shallowly embedded: pure helpers become Lean functions,
the reconciliation pass becomes an explicit function from a pass input
(read-phase outcomes, listed pods, injected probe responses and failure
sets) to a pass output (events, issued annotation updates, final
in-memory pods, whether a reparent was attempted, and the reconcile
result). Go maps are determinized as association lists in iteration
order; Go string versions are parsed with a direct model of the
regular expression of the source. Collaborator packages that are not
part of this repository snapshot (the drain marker package and the
results builder) are modelled from the specification and marked as such
in their doc comments.
-/

/-- Drain lifecycle states of the drain package. The Go names are
NotDrainingState, DrainingState, AcknowledgedState, FinishedState. -/
inductive DrainState
  | notDraining
  | draining
  | acknowledged
  | finished
deriving DecidableEq, Repr

/-- Availability condition of a tracked tablet, corev1.ConditionTrue etc. -/
inductive Condition
  | ctrue
  | cfalse
  | cunknown
deriving DecidableEq, Repr

/-- Event type, corev1.EventTypeWarning / corev1.EventTypeNormal. -/
inductive EventType
  | warning
  | normal
deriving DecidableEq, Repr

/-- A recorded event: type, reason string, and a short message tag that
distinguishes the emission sites sharing a reason. -/
structure Event where
  etype : EventType
  reason : String
  msg : String
deriving DecidableEq, Repr

/-- Tablet types from topodatapb used by this controller. -/
inductive TabletType
  | primary
  | replica
  | spare
  | other
deriving DecidableEq, Repr

/-- A tablet record (topo.TabletInfo): its alias string and its type.
The Go field Alias is named aliasStr here because alias is a Lean
keyword. -/
structure Tablet where
  aliasStr : String
  type : TabletType
deriving DecidableEq, Repr

/-- A shard record (topo.ShardInfo): the alias string of the current
primary, or none when the shard has no primary (HasPrimary is false). -/
structure Shard where
  primaryAlias : Option String
deriving DecidableEq, Repr

/-- A tablet Pod: its tablet alias (vttablet.AliasFromPod), the three
drain marker annotations as presence booleans, readiness
(podutils.IsPodReady), the tablet-type pool label, and the image of the
mysqld container (empty when there is no such container). -/
structure Pod where
  aliasStr : String
  started : Bool
  acknowledged : Bool
  finished : Bool
  ready : Bool
  tabletTypeLabel : String
  mysqldImage : String
deriving DecidableEq, Repr

/-- The fields of the VitessShard object the drain pass reads: the
per-tablet availability status map, whether the datastore is externally
managed, and the desired mysqld image. -/
structure VitessShard where
  tabletStatuses : List (String × Condition)
  usingExternal : Bool
  mysqldImage : String
deriving DecidableEq, Repr

/-- Outcome of one replication-status probe of a candidate
(candidateInfo in the source): the candidate it concerns and its decoded
replication position, none when the probe errored or timed out. -/
structure ProbeResult where
  tablet : String × Tablet
  position : Option Nat
deriving DecidableEq, Repr

/-- The reconcile result of a pass: an error result that fails the
controller loop, a schedule-retry-after-fixed-delay result, or a plain
completed result. -/
inductive RecResult
  | error
  | requeueAfter
  | done
deriving DecidableEq, Repr

/-- Modelled from the spec: the results.Builder of the operator results
package. Collected per-item errors make the final result an error
result; otherwise a requested requeue yields the retry-after-delay
result. -/
def builderResult (errs : List String) (requeue : Bool) : RecResult :=
  if errs.isEmpty then (if requeue then RecResult.requeueAfter else RecResult.done)
  else RecResult.error

deriving instance DecidableEq for Except

/- ### The safe-upgrade version gate (safeMysqldUpgrade) -/

/-- The tail of the string after the first colon, as in
strings.SplitN(s, a colon, 2): none when the string has no colon, in
which case the Go slice has fewer than 2 parts. -/
def splitAtColon : List Char → Option (List Char)
  | [] => none
  | c :: rest => if c = ':' then some rest else splitAtColon rest

/-- Numeric value of a digit string, as strconv.Atoi on a matched digit
group. -/
def digitsVal (l : List Char) : Nat :=
  l.foldl (fun n c => n * 10 + (c.toNat - 48)) 0

/-- The three capture groups of the anchored regular expression
matching major, minor and patch digit runs at the start of the version
string (mysqlImageVersion in the source), or none when it does not
match. -/
def matchVersion (l : List Char) : Option (List Char × List Char × List Char) :=
  let s1 := List.span Char.isDigit l
  if s1.1.isEmpty then none else
  match s1.2 with
  | '.' :: rest2 =>
    let s2 := List.span Char.isDigit rest2
    if s2.1.isEmpty then none else
    match s2.2 with
    | '.' :: rest4 =>
      let d3 := (List.span Char.isDigit rest4).1
      if d3.isEmpty then none else some (s1.1, s2.1, d3)
    | _ => none
  | _ => none

/-- safeMysqldUpgrade: decides whether changing the mysqld image from
currentImage to desiredImage requires disabling fast shutdown first,
or is an unsupported downgrade (an error). Mirrors the source,
including the comparison of the desired major number against the
current minor number in the minor-downgrade guard. -/
def safeMysqldUpgrade (currentImage desiredImage : String) : Except String Bool :=
  if currentImage = "" ∨ desiredImage = "" then Except.ok false
  else if desiredImage = currentImage then Except.ok false
  else
    match splitAtColon currentImage.data with
    | none => Except.ok false
    | some current =>
      match splitAtColon desiredImage.data with
      | none => Except.ok false
      | some desired =>
        match matchVersion current with
        | none => Except.ok true
        | some curStrParts =>
          match matchVersion desired with
          | none => Except.ok true
          | some dstStrParts =>
            if dstStrParts = curStrParts then Except.ok false
            else
              let c0 := digitsVal curStrParts.1
              let c1 := digitsVal curStrParts.2.1
              let c2 := digitsVal curStrParts.2.2
              let d0 := digitsVal dstStrParts.1
              let d1 := digitsVal dstStrParts.2.1
              let d2 := digitsVal dstStrParts.2.2
              if d0 < c0 then Except.error ("cannot downgrade major version")
              else if d0 = c1 ∧ d1 < c1 then Except.error ("cannot downgrade minor version")
              else if d0 = 8 ∧ d1 = 0 ∧ c0 = 8 ∧ c1 = 0 then
                if 34 ≤ d2 ∧ 34 ≤ c2 then Except.ok false
                else if d2 < c2 then Except.error ("cannot downgrade patch version")
                else Except.ok (decide (d2 ≠ c2))
              else Except.ok (decide (d0 ≠ c0 ∨ d1 ≠ c1))

/-- Claim C3: the gate is supposed to reject any minor-version
downgrade with an error, but the guard in the source compares the
desired major number with the current minor number, so the
minor-version downgrade from 8.1.0 to 8.0.0 is not rejected: the gate
returns the safe-mode decision true with no error. This evaluates the
embedded source at that failing input. -/
theorem minor_downgrade_not_rejected :
    safeMysqldUpgrade ("mysql:8.1.0") ("mysql:8.0.0") = Except.ok true := by
  decide

/-- Claim C5 counterexample: applied literally to the argument pairs
given in the spec, which carry no colon-separated image tag, the gate
treats them as images without a version and returns no-safe-mode, not
the outcomes the claim lists (the first pair is claimed to yield
safe-mode required = true). -/
theorem gate_bare_versions_counterexample :
    safeMysqldUpgrade ("8.0.33") ("8.0.34") = Except.ok false ∧
    (Except.ok false : Except String Bool) ≠ Except.ok true := by
  decide

/-- Claim C5 (amended): with image arguments whose colon-separated tags
are the versions given in the spec, the gate yields exactly the listed
outcomes: 8.0.33 to 8.0.34 needs safe mode, 8.0.35 to 8.0.36 does not,
8.0.34 to 8.0.20 is a patch-downgrade error, and 5.7.9 to 8.0.1 needs
safe mode. -/
theorem gate_spec_examples :
    safeMysqldUpgrade ("mysql:8.0.33") ("mysql:8.0.34") = Except.ok true ∧
    safeMysqldUpgrade ("mysql:8.0.35") ("mysql:8.0.36") = Except.ok false ∧
    safeMysqldUpgrade ("mysql:8.0.34") ("mysql:8.0.20") =
      Except.error ("cannot downgrade patch version") ∧
    safeMysqldUpgrade ("mysql:5.7.9") ("mysql:8.0.1") = Except.ok true := by
  decide

/-- Claim C8: for non-empty, non-identical images that both carry a
version portion after a colon, if either version portion fails to
match the semantic-version pattern, the gate conservatively returns
safe-mode required = true with no error. -/
theorem gate_unparseable_conservative (cur dst : String) (cv dv : List Char)
    (h1 : cur ≠ "") (h2 : dst ≠ "") (h3 : dst ≠ cur)
    (h4 : splitAtColon cur.data = some cv)
    (h5 : splitAtColon dst.data = some dv)
    (h6 : matchVersion cv = none ∨ matchVersion dv = none) :
    safeMysqldUpgrade cur dst = Except.ok true := by
  unfold safeMysqldUpgrade
  rw [if_neg (by simp [h1, h2]), if_neg h3, h4, h5]
  rcases h6 with h6 | h6
  · simp only [h6]
  · cases hcv : matchVersion cv <;> simp only [hcv, h6]

/-- Claim C8 witness: a concrete non-empty, non-identical pair with
unparseable version portions on both sides is judged as needing safe
mode. -/
theorem gate_unparseable_conservative_witness :
    safeMysqldUpgrade ("img:alpha") ("img:beta") = Except.ok true :=
  gate_unparseable_conservative ("img:alpha") ("img:beta")
    ("alpha".data) ("beta".data) (by decide) (by decide) (by decide)
    (by decide) (by decide) (Or.inl (by decide))

/- ### The drain marker package (modelled) -/

namespace drain

/-- Modelled from the spec: the drain package predicate Started, the
presence of the started marker written by the external drainer. -/
def Started (pod : Pod) : Bool := pod.started

/-- Modelled from the spec: the drain package predicate Acknowledged,
the presence of the acknowledged marker written by the reconciler. -/
def Acknowledged (pod : Pod) : Bool := pod.acknowledged

/-- Modelled from the spec: the drain package predicate Finished, the
presence of the finished marker written by the reconciler. -/
def Finished (pod : Pod) : Bool := pod.finished

/-- Modelled from the spec: the drain package mutator Finish sets the
finished marker annotation on the pod. -/
def Finish (pod : Pod) : Pod := { pod with finished := true }

/-- Modelled from the spec: the drain package mutator Unfinish clears
the finished marker annotation. -/
def Unfinish (pod : Pod) : Pod := { pod with finished := false }

/-- Modelled from the spec: the drain package mutator Acknowledge sets
the acknowledged marker annotation. -/
def Acknowledge (pod : Pod) : Pod := { pod with acknowledged := true }

/-- Modelled from the spec: the drain package mutator Unacknowledge
clears the acknowledged marker annotation. -/
def Unacknowledge (pod : Pod) : Pod := { pod with acknowledged := false }

/-- Modelled from the spec: the drain package GetState, the observed
state of a pod that has started draining: finished, else acknowledged,
else draining. The error case of the Go function (an inconsistent
marker combination) is not modelled; the loop only records events for
it. -/
def GetState (pod : Pod) : DrainState :=
  if pod.finished then DrainState.finished
  else if pod.acknowledged then DrainState.acknowledged
  else DrainState.draining

/-- Modelled from the spec: the drain package StateTransitions, the
pure state machine from observed states of started pods to target
states. Started pods are always promoted to acknowledged first; when
one pod is already finished it stays finished and no other pod becomes
finished; when nobody is finished and nobody is still merely draining,
exactly one acknowledged pod (the first) is promoted to finished. -/
def StateTransitions (drains : List (String × DrainState)) :
    List (String × DrainState) :=
  let anyFinished := drains.any (fun e => decide (e.2 = DrainState.finished))
  let anyDraining := drains.any (fun e => decide (e.2 = DrainState.draining))
  if anyFinished || anyDraining then
    drains.map (fun e =>
      (e.1, if e.2 = DrainState.draining then DrainState.acknowledged else e.2))
  else
    match drains with
    | [] => []
    | e :: rest => (e.1, DrainState.finished) :: rest

end drain

/- ### updateDrainStatus -/

/-- updateDrainStatus: brings the marker annotations of a pod to the
target drain state. Returns the new in-memory pod and whether an
update call to the runtime platform was issued (hasUpdated in the Go
source; when it is false the function returns nil without calling the
platform). The draining target is a programming error in the source (a
panic), modelled as none. -/
def updateDrainStatus (pod : Pod) (drainStatus : DrainState) :
    Option (Pod × Bool) :=
  match drainStatus with
  | DrainState.finished =>
    if drain.Finished pod then some (pod, false)
    else some (drain.Finish pod, true)
  | DrainState.acknowledged =>
    if drain.Acknowledged pod then some (pod, false)
    else some (drain.Acknowledge pod, true)
  | DrainState.notDraining =>
    let p1 := if drain.Finished pod then drain.Unfinish pod else pod
    let p2 := if drain.Acknowledged p1 then drain.Unacknowledge p1 else p1
    some (p2, drain.Finished pod || drain.Acknowledged p1)
  | DrainState.draining => none

/-- The pod annotations already encode the target state: finished means
the finished marker is set, acknowledged means the acknowledged marker
is set, not-draining means both reconciler-written markers are absent. -/
def podEncodes (pod : Pod) : DrainState → Prop
  | DrainState.finished => pod.finished = true
  | DrainState.acknowledged => pod.acknowledged = true
  | DrainState.notDraining => pod.finished = false ∧ pod.acknowledged = false
  | DrainState.draining => False

/-- Claim C9: updateDrainStatus is write-free on a fixed point and
idempotent: when the pod already encodes the target state (finished,
acknowledged or not-draining) the call issues no platform update and
leaves the pod unchanged, returning without error; and applying the
same target twice equals applying it once, the second application
being write-free. -/
theorem updateDrainStatus_idempotent (pod : Pod) (s : DrainState)
    (hs : s ≠ DrainState.draining) :
    (podEncodes pod s → updateDrainStatus pod s = some (pod, false)) ∧
    (∀ p2 b, updateDrainStatus pod s = some (p2, b) →
      updateDrainStatus p2 s = some (p2, false)) := by
  cases s with
  | draining => exact absurd rfl hs
  | finished =>
    constructor
    · intro h
      simp only [podEncodes] at h
      simp [updateDrainStatus, drain.Finished, h]
    · intro p2 b h
      by_cases hf : pod.finished = true
      · simp [updateDrainStatus, drain.Finished, hf] at h
        simp [updateDrainStatus, drain.Finished, ← h.1, hf]
      · simp [updateDrainStatus, drain.Finished, drain.Finish, hf] at h
        simp [updateDrainStatus, drain.Finished, ← h.1]
  | acknowledged =>
    constructor
    · intro h
      simp only [podEncodes] at h
      simp [updateDrainStatus, drain.Acknowledged, h]
    · intro p2 b h
      by_cases ha : pod.acknowledged = true
      · simp [updateDrainStatus, drain.Acknowledged, ha] at h
        simp [updateDrainStatus, drain.Acknowledged, ← h.1, ha]
      · simp [updateDrainStatus, drain.Acknowledged, drain.Acknowledge, ha] at h
        simp [updateDrainStatus, drain.Acknowledged, ← h.1]
  | notDraining =>
    constructor
    · intro h
      simp only [podEncodes] at h
      simp [updateDrainStatus, drain.Finished, drain.Acknowledged, h.1, h.2]
    · intro p2 b h
      by_cases hf : pod.finished = true <;> by_cases ha : pod.acknowledged = true <;>
        simp [updateDrainStatus, drain.Finished, drain.Acknowledged, drain.Unfinish,
          drain.Unacknowledge, hf, ha] at h <;>
        simp [updateDrainStatus, drain.Finished, drain.Acknowledged, drain.Unfinish,
          drain.Unacknowledge, ← h.1, hf, ha]

/-- A concrete pod already carrying the finished marker, used as the
witness input for the idempotence claim. -/
def finishedPod : Pod :=
  ⟨"cell-1", true, false, true, true, "", ""⟩

/-- Claim C9 witness: a pod already carrying the finished marker is
left untouched with no platform update, and re-application is
write-free. -/
theorem updateDrainStatus_idempotent_witness :
    (podEncodes finishedPod DrainState.finished →
      updateDrainStatus finishedPod DrainState.finished =
        some (finishedPod, false)) ∧
    (∀ p2 b, updateDrainStatus finishedPod DrainState.finished = some (p2, b) →
      updateDrainStatus p2 DrainState.finished = some (p2, false)) :=
  updateDrainStatus_idempotent finishedPod DrainState.finished (by decide)

/- ### isShardHealthy -/

/-- isShardHealthy: scans the externally maintained per-tablet status
map of the shard object and reports the first tablet that is not
marked Available, or none when the shard is healthy. -/
def isShardHealthy (vts : VitessShard) : Option String :=
  (vts.tabletStatuses.find? (fun e => decide (e.2 ≠ Condition.ctrue))).map
    (fun e => e.1)

/- ### candidatePrimary -/

/-- The tablet pool label value of the designated external-primary
pool (planetscalev2.ExternalMasterTabletPoolName). -/
def externalMasterPoolName : String := "externalmaster"

/-- The per-tablet eligibility filter of candidatePrimary, over one
entry of the tablet map (map key and tablet record), in the order of
the source: not the current primary, backing pod exists, role rule
(external pool with SPARE or PRIMARY when using an external datastore,
REPLICA exactly otherwise), pod ready, and not mid-drain. -/
def isEligible (shard : Shard) (pods : List (String × Pod)) (usingExternal : Bool)
    (entry : String × Tablet) : Bool :=
  let isPrim : Bool :=
    match shard.primaryAlias with
    | some pa => decide (entry.2.aliasStr = pa)
    | none => false
  if isPrim then false
  else
    match List.lookup entry.1 pods with
    | none => false
    | some pod =>
      let roleOk : Bool :=
        if usingExternal then
          decide (pod.tabletTypeLabel = externalMasterPoolName) &&
            (decide (entry.2.type = TabletType.spare) ||
              decide (entry.2.type = TabletType.primary))
        else decide (entry.2.type = TabletType.replica)
      roleOk && pod.ready && !(pod.started || pod.acknowledged || pod.finished)


/-- The body of the collector loop of candidatePrimary for one received
probe result: a result with an error is skipped; a successful result
replaces the best candidate when the highest position so far is the
zero position or is not at least the new position. -/
def pickStep (acc : Option (String × Tablet) × Nat) (r : ProbeResult) :
    Option (String × Tablet) × Nat :=
  match r.position with
  | none => acc
  | some pos =>
    if acc.2 = 0 ∨ acc.2 < pos then (some r.tablet, pos) else acc

/-- The collector loop of candidatePrimary: reads the probe results in
arrival order, keeping the best candidate and highest position so far. -/
def pickBest : List ProbeResult → Option (String × Tablet) × Nat →
    Option (String × Tablet) × Nat
  | [], acc => acc
  | r :: rest, acc => pickBest rest (pickStep acc r)

/-- candidatePrimary: filters the tablet map down to eligible
candidates, then picks the responder with the highest replication
position, falling back to the first candidate when nobody responded.
The result carries the map key alongside the tablet record; the Go
function returns just the tablet record. The probe responses are an
input in arrival order, standing for the fan-in channel of the
source. -/
def candidatePrimary (shard : Shard) (tablets : List (String × Tablet))
    (pods : List (String × Pod)) (usingExternal : Bool)
    (responses : List ProbeResult) : Option (String × Tablet) :=
  let candidates := tablets.filter (isEligible shard pods usingExternal)
  match candidates with
  | [] => none
  | c :: _ =>
    match (pickBest responses (none, 0)).1 with
    | some t => some t
    | none => some c

theorem pickStep_none (acc : Option (String × Tablet) × Nat) (r : ProbeResult)
    (hp : r.position = none) : pickStep acc r = acc := by
  unfold pickStep
  rw [hp]

theorem pickStep_some (acc : Option (String × Tablet) × Nat) (r : ProbeResult)
    (pos : Nat) (hp : r.position = some pos) :
    pickStep acc r =
      if acc.2 = 0 ∨ acc.2 < pos then (some r.tablet, pos) else acc := by
  unfold pickStep
  rw [hp]

theorem pickStep_cases (acc : Option (String × Tablet) × Nat) (r : ProbeResult) :
    pickStep acc r = acc ∨
    ∃ pos, r.position = some pos ∧ pickStep acc r = (some r.tablet, pos) := by
  cases hp : r.position with
  | none => exact Or.inl (pickStep_none acc r hp)
  | some pos =>
    rw [pickStep_some acc r pos hp]
    by_cases hc : acc.2 = 0 ∨ acc.2 < pos
    · exact Or.inr ⟨pos, rfl, if_pos hc⟩
    · exact Or.inl (if_neg hc)

/-- The collector result is the starting accumulator or one of the
responses. -/
theorem pickBest_result_mem (rs : List ProbeResult) :
    ∀ acc : Option (String × Tablet) × Nat,
      (pickBest rs acc).1 = acc.1 ∨
      ∃ r ∈ rs, (pickBest rs acc).1 = some r.tablet := by
  induction rs with
  | nil => intro acc; exact Or.inl rfl
  | cons r rest ih =>
    intro acc
    show (pickBest rest (pickStep acc r)).1 = acc.1 ∨
      ∃ x ∈ r :: rest, (pickBest rest (pickStep acc r)).1 = some x.tablet
    rcases pickStep_cases acc r with hstep | ⟨pos, hp, hstep⟩
    · rw [hstep]
      rcases ih acc with h | ⟨x, hx, h⟩
      · exact Or.inl h
      · exact Or.inr ⟨x, List.mem_cons_of_mem r hx, h⟩
    · rw [hstep]
      rcases ih (some r.tablet, pos) with h | ⟨x, hx, h⟩
      · exact Or.inr ⟨r, List.mem_cons_self r rest, h⟩
      · exact Or.inr ⟨x, List.mem_cons_of_mem r hx, h⟩

theorem pickStep_lt (acc : Option (String × Tablet) × Nat) (r : ProbeResult)
    (b : Nat) (hacc : acc.2 < b)
    (hr : ∀ q, r.position = some q → q < b) : (pickStep acc r).2 < b := by
  cases hp : r.position with
  | none => rw [pickStep_none acc r hp]; exact hacc
  | some pos =>
    rw [pickStep_some acc r pos hp]
    by_cases hc : acc.2 = 0 ∨ acc.2 < pos
    · rw [if_pos hc]; exact hr pos hp
    · rw [if_neg hc]; exact hacc

/-- When every position in the responses is below a bound and the
accumulator is below it, the collector stays below the bound. -/
theorem pickBest_lt (rs : List ProbeResult) (b : Nat) :
    ∀ acc : Option (String × Tablet) × Nat, acc.2 < b →
      (∀ x ∈ rs, ∀ q, x.position = some q → q < b) →
      (pickBest rs acc).2 < b := by
  induction rs with
  | nil => intro acc h _; exact h
  | cons r rest ih =>
    intro acc hacc hall
    show (pickBest rest (pickStep acc r)).2 < b
    exact ih (pickStep acc r)
      (pickStep_lt acc r b hacc (hall r (List.mem_cons_self r rest)))
      (fun x hx => hall x (List.mem_cons_of_mem r hx))

/-- When the accumulator holds a nonzero position at least every
remaining response, the collector keeps it: ties keep the earliest-seen
highest responder. -/
theorem pickBest_stay (rs : List ProbeResult) :
    ∀ acc : Option (String × Tablet) × Nat, 0 < acc.2 →
      (∀ x ∈ rs, ∀ q, x.position = some q → q ≤ acc.2) →
      pickBest rs acc = acc := by
  induction rs with
  | nil => intro acc _ _; rfl
  | cons r rest ih =>
    intro acc hpos hall
    have hstep : pickStep acc r = acc := by
      cases hp : r.position with
      | none => exact pickStep_none acc r hp
      | some q =>
        rw [pickStep_some acc r q hp]
        have hq : q ≤ acc.2 := hall r (List.mem_cons_self r rest) q hp
        exact if_neg (by omega)
    show pickBest rest (pickStep acc r) = acc
    rw [hstep]
    exact ih acc hpos (fun x hx => hall x (List.mem_cons_of_mem r hx))

/-- When no response carries a position, the collector is the
identity. -/
theorem pickBest_allnone (rs : List ProbeResult) :
    ∀ acc : Option (String × Tablet) × Nat,
      (∀ x ∈ rs, x.position = none) → pickBest rs acc = acc := by
  induction rs with
  | nil => intro acc _; rfl
  | cons r rest ih =>
    intro acc hall
    show pickBest rest (pickStep acc r) = acc
    rw [pickStep_none acc r (hall r (List.mem_cons_self r rest))]
    exact ih acc (fun x hx => hall x (List.mem_cons_of_mem r hx))

/-- The collector processes a concatenation left to right. -/
theorem pickBest_append (xs ys : List ProbeResult) :
    ∀ acc : Option (String × Tablet) × Nat,
      pickBest (xs ++ ys) acc = pickBest ys (pickBest xs acc) := by
  induction xs with
  | nil => intro acc; rfl
  | cons r rest ih =>
    intro acc
    show pickBest (rest ++ ys) (pickStep acc r) = _
    exact ih (pickStep acc r)

/-- Unfolding of the eligibility filter: a tablet accepted by the
filter is not the current primary, has an existing ready backing pod
with no drain marker, and satisfies the role rule. -/
theorem isEligible_spec (shard : Shard) (pods : List (String × Pod)) (ue : Bool)
    (a : String) (t : Tablet) (h : isEligible shard pods ue (a, t) = true) :
    shard.primaryAlias ≠ some t.aliasStr ∧
    ∃ pod, List.lookup a pods = some pod ∧ pod.ready = true ∧
      pod.started = false ∧ pod.acknowledged = false ∧ pod.finished = false ∧
      (ue = true → pod.tabletTypeLabel = externalMasterPoolName ∧
        (t.type = TabletType.spare ∨ t.type = TabletType.primary)) ∧
      (ue = false → t.type = TabletType.replica) := by
  unfold isEligible at h
  have hprim : shard.primaryAlias ≠ some t.aliasStr := by
    cases hpa : shard.primaryAlias with
    | none => simp
    | some pa =>
      rw [hpa] at h
      by_cases heq : t.aliasStr = pa
      · simp [heq] at h
      · simp only [Ne, Option.some.injEq]
        intro hcon
        exact heq hcon.symm
  refine ⟨hprim, ?_⟩
  have h2 : (match List.lookup a pods with
      | none => false
      | some pod =>
        (if ue then
          decide (pod.tabletTypeLabel = externalMasterPoolName) &&
            (decide (t.type = TabletType.spare) ||
              decide (t.type = TabletType.primary))
        else decide (t.type = TabletType.replica)) && pod.ready &&
          !(pod.started || pod.acknowledged || pod.finished)) = true := by
    cases hpa : shard.primaryAlias with
    | none => rw [hpa] at h; simpa using h
    | some pa =>
      rw [hpa] at h
      by_cases heq : t.aliasStr = pa
      · simp [heq] at h
      · simpa [heq] using h
  cases hlk : List.lookup a pods with
  | none => rw [hlk] at h2; simp at h2
  | some pod =>
    rw [hlk] at h2
    simp only [Bool.and_eq_true, Bool.not_eq_true', Bool.or_eq_false_iff] at h2
    have hrole := h2.1.1
    refine ⟨pod, rfl, h2.1.2, h2.2.1.1, h2.2.1.2, h2.2.2, ?_, ?_⟩
    · intro hue
      subst hue
      simp at hrole
      exact hrole
    · intro hue
      subst hue
      simp at hrole
      exact hrole

/- ### Concrete shard data for the selector claims -/

/-- Example tablet A of the spec scenarios. -/
def exTabletA : Tablet := ⟨"cell-1", TabletType.replica⟩

/-- Example tablet B of the spec scenarios. -/
def exTabletB : Tablet := ⟨"cell-2", TabletType.replica⟩

/-- Example tablet C of the spec scenarios. -/
def exTabletC : Tablet := ⟨"cell-3", TabletType.replica⟩

/-- A ready pod with no drain markers for the given alias. -/
def readyPod (a : String) : Pod := ⟨a, false, false, false, true, "", ""⟩

/-- Example shard whose primary is a fourth tablet. -/
def exShard : Shard := ⟨some ("cell-0")⟩

/-- Tablet map with candidates A, B, C. -/
def exTablets : List (String × Tablet) :=
  [(("cell-1"), exTabletA), (("cell-2"), exTabletB), (("cell-3"), exTabletC)]

/-- Pod map backing A, B, C. -/
def exPods : List (String × Pod) :=
  [(("cell-1"), readyPod ("cell-1")), (("cell-2"), readyPod ("cell-2")),
   (("cell-3"), readyPod ("cell-3"))]

/-- Probe responses with positions 5, 9, 3 for A, B, C. -/
def exResponses : List ProbeResult :=
  [⟨(("cell-1"), exTabletA), some 5⟩, ⟨(("cell-2"), exTabletB), some 9⟩,
   ⟨(("cell-3"), exTabletC), some 3⟩]

/-- Tablet map with candidates A, B only. -/
def exTabletsAB : List (String × Tablet) :=
  [(("cell-1"), exTabletA), (("cell-2"), exTabletB)]

/-- Pod map backing A, B. -/
def exPodsAB : List (String × Pod) :=
  [(("cell-1"), readyPod ("cell-1")), (("cell-2"), readyPod ("cell-2"))]

/-- Probe responses where neither A nor B answered in time. -/
def exNoResponses : List ProbeResult :=
  [⟨(("cell-1"), exTabletA), none⟩, ⟨(("cell-2"), exTabletB), none⟩]

/-- Claim C6: whenever candidatePrimary returns a tablet, that tablet
is not the current primary, its backing pod exists, is ready and
carries no started, acknowledged or finished drain marker, and the
role rule holds: external-primary pool with role SPARE or PRIMARY for
externally managed datastores, role REPLICA exactly otherwise. The
responses are assumed to concern eligible candidates only, as the
probe fan-out of the source only contacts candidates. -/
theorem candidate_primary_sound (shard : Shard) (tablets : List (String × Tablet))
    (pods : List (String × Pod)) (ue : Bool) (rs : List ProbeResult)
    (a : String) (t : Tablet)
    (hres : ∀ r ∈ rs, r.tablet ∈ tablets.filter (isEligible shard pods ue))
    (hret : candidatePrimary shard tablets pods ue rs = some (a, t)) :
    shard.primaryAlias ≠ some t.aliasStr ∧
    ∃ pod, List.lookup a pods = some pod ∧ pod.ready = true ∧
      pod.started = false ∧ pod.acknowledged = false ∧ pod.finished = false ∧
      (ue = true → pod.tabletTypeLabel = externalMasterPoolName ∧
        (t.type = TabletType.spare ∨ t.type = TabletType.primary)) ∧
      (ue = false → t.type = TabletType.replica) := by
  have hmem : (a, t) ∈ tablets.filter (isEligible shard pods ue) := by
    unfold candidatePrimary at hret
    cases hc : tablets.filter (isEligible shard pods ue) with
    | nil =>
      rw [hc] at hret
      simp at hret
    | cons c cs =>
      rw [hc] at hret
      cases hpb : (pickBest rs (none, 0)).1 with
      | some tb =>
        have hret2 : some tb = some (a, t) := by
          rw [← hret]
          show some tb = (match (pickBest rs (none, 0)).1 with
            | some t2 => some t2
            | none => some c)
          rw [hpb]
        rcases pickBest_result_mem rs (none, 0) with h | ⟨x, hx, h⟩
        · rw [hpb] at h; cases h
        · rw [hpb] at h
          have hxat : x.tablet = (a, t) :=
            Option.some_injective _ (h.symm.trans hret2)
          have hm := hres x hx
          rw [hc] at hm
          rw [← hxat]
          exact hm
      | none =>
        have hret2 : some c = some (a, t) := by
          rw [← hret]
          show some c = (match (pickBest rs (none, 0)).1 with
            | some t2 => some t2
            | none => some c)
          rw [hpb]
        have hcat : c = (a, t) := Option.some_injective _ hret2
        rw [← hcat]
        exact List.mem_cons_self c cs
  exact isEligible_spec shard pods ue a t (List.mem_filter.mp hmem).2

/-- Claim C6 witness: with no probe responses, the selector over the
example shard returns tablet A, which satisfies all eligibility
conclusions. -/
theorem candidate_primary_sound_witness :
    exShard.primaryAlias ≠ some exTabletA.aliasStr ∧
    ∃ pod, List.lookup ("cell-1") exPods = some pod ∧ pod.ready = true ∧
      pod.started = false ∧ pod.acknowledged = false ∧ pod.finished = false ∧
      (false = true → pod.tabletTypeLabel = externalMasterPoolName ∧
        (exTabletA.type = TabletType.spare ∨
          exTabletA.type = TabletType.primary)) ∧
      (false = false → exTabletA.type = TabletType.replica) :=
  candidate_primary_sound exShard exTablets exPods false [] ("cell-1") exTabletA
    (by simp) (by decide)

/-- Claim C7: the selector returns the first response that strictly
beats every earlier response and is at least every later one (the
earliest-seen furthest-advanced responder); when no response carries a
position it falls back to the first eligible candidate. In particular,
positions 5, 9, 3 for candidates A, B, C yield B, and zero responses
for candidates A, B yield A. -/
theorem candidate_selection (shard : Shard) (tablets : List (String × Tablet))
    (pods : List (String × Pod)) (ue : Bool)
    (pre post : List ProbeResult) (r : ProbeResult) (p : Nat)
    (c : String × Tablet) (cs : List (String × Tablet))
    (hc : tablets.filter (isEligible shard pods ue) = c :: cs)
    (hp : r.position = some p) (hpos : 0 < p)
    (hpre : ∀ x ∈ pre, ∀ q, x.position = some q → q < p)
    (hpost : ∀ x ∈ post, ∀ q, x.position = some q → q ≤ p) :
    candidatePrimary shard tablets pods ue (pre ++ r :: post) = some r.tablet ∧
    (∀ rs2, (∀ x ∈ rs2, x.position = none) →
      candidatePrimary shard tablets pods ue rs2 = some c) ∧
    candidatePrimary exShard exTablets exPods false exResponses =
      some ((("cell-2"), exTabletB)) ∧
    candidatePrimary exShard exTabletsAB exPodsAB false exNoResponses =
      some ((("cell-1"), exTabletA)) := by
  refine ⟨?_, ?_, by decide, by decide⟩
  · have h1 : (pickBest pre ((none : Option (String × Tablet)), 0)).2 < p :=
      pickBest_lt pre p (none, 0) hpos hpre
    have hkey : (pickBest (pre ++ r :: post) (none, 0)).1 = some r.tablet := by
      rw [pickBest_append]
      show (pickBest post (pickStep (pickBest pre (none, 0)) r)).1 = some r.tablet
      have hstep : pickStep (pickBest pre (none, 0)) r = (some r.tablet, p) := by
        rw [pickStep_some _ r p hp]
        exact if_pos (Or.inr h1)
      rw [hstep, pickBest_stay post (some r.tablet, p) hpos hpost]
    unfold candidatePrimary
    rw [hc]
    show (match (pickBest (pre ++ r :: post) (none, 0)).1 with
      | some t2 => some t2
      | none => some c) = some r.tablet
    rw [hkey]
  · intro rs2 hnone
    unfold candidatePrimary
    rw [hc]
    show (match (pickBest rs2 (none, 0)).1 with
      | some t2 => some t2
      | none => some c) = some c
    rw [pickBest_allnone rs2 (none, 0) hnone]

/-- Claim C7 witness: the selector over the example data, with the
position-9 response of B between the responses of A and C, returns B. -/
theorem candidate_selection_witness :
    candidatePrimary exShard exTablets exPods false
        ([⟨(("cell-1"), exTabletA), some 5⟩] ++
          (⟨(("cell-2"), exTabletB), some 9⟩ : ProbeResult) ::
          [⟨(("cell-3"), exTabletC), some 3⟩]) =
      some ((("cell-2"), exTabletB)) :=
  (candidate_selection exShard exTablets exPods false
      [⟨(("cell-1"), exTabletA), some 5⟩]
      [⟨(("cell-3"), exTabletC), some 3⟩]
      ⟨(("cell-2"), exTabletB), some 9⟩ 9
      ((("cell-1"), exTabletA))
      [(("cell-2"), exTabletB), (("cell-3"), exTabletC)]
      (by decide) rfl (by decide)
      (by
        intro x hx q hq
        rw [List.mem_singleton] at hx
        subst hx
        simp at hq
        omega)
      (by
        intro x hx q hq
        rw [List.mem_singleton] at hx
        subst hx
        simp at hq
        omega)).1

/- ### The reconcile pass (reconcileDrain) -/

/-- One phase-2 pass outcome: the drain state snapshot of started pods,
the aborting-drain flag, emitted events, issued annotation updates as
pairs of pod alias and target state, the in-memory pods after the
clearing, and collected per-pod update errors. -/
structure Phase2Out where
  drains : List (String × DrainState)
  aborting : Bool
  events : List Event
  updates : List (String × DrainState)
  pods : List (String × Pod)
  errs : List String
deriving DecidableEq, Repr

/-- Phase 2 of the pass: collect the drain state of each started pod;
for every pod without a started marker, flag an aborting drain when it
still carries an acknowledged or finished marker, and clear those
markers through updateDrainStatus with the not-draining target. The
fails argument lists the pods whose platform update call fails. -/
def phase2Clear (fails : List String) : List (String × Pod) → Phase2Out
  | [] => ⟨[], false, [], [], [], []⟩
  | (a, p) :: rest =>
    let r := phase2Clear fails rest
    if p.started then
      ⟨(a, drain.GetState p) :: r.drains, r.aborting, r.events, r.updates,
        (a, p) :: r.pods, r.errs⟩
    else
      let abortHere := p.acknowledged || p.finished
      let abortEvs : List Event :=
        if abortHere then [⟨EventType.warning, "AbortingDrain", a⟩] else []
      match updateDrainStatus p DrainState.notDraining with
      | some (p2, issued) =>
        let failed := issued && fails.contains a
        ⟨r.drains, abortHere || r.aborting,
          abortEvs ++ (if failed then [⟨EventType.warning, "UpdateFailed", a⟩]
            else []) ++ r.events,
          (if issued then [(a, DrainState.notDraining)] else []) ++ r.updates,
          (a, p2) :: r.pods,
          (if failed then [a] else []) ++ r.errs⟩
      | none =>
        ⟨r.drains, abortHere || r.aborting, abortEvs ++ r.events, r.updates,
          (a, p) :: r.pods, r.errs⟩

/-- Replace the pod stored under an alias, standing for the in-place
mutation of the pod object the Go map points to. -/
def setPod (a : String) (p : Pod) (pods : List (String × Pod)) :
    List (String × Pod) :=
  pods.map (fun e => if e.1 = a then (e.1, p) else e)

/-- One phase-3 outcome: whether any drain was newly acknowledged,
emitted events, issued annotation updates, the in-memory pods after the
loop, and collected per-pod update errors. -/
structure Phase3Out where
  acknowledged : Bool
  events : List Event
  updates : List (String × DrainState)
  pods : List (String × Pod)
  errs : List String
deriving DecidableEq, Repr

/-- Phase 3 of the pass: apply the state machine output, skipping the
pair of the current primary with the finished target, tracking whether
a drain was acknowledged this pass, and updating each pod through
updateDrainStatus. A missing pod or a draining target is skipped; both
are unreachable for transitions computed from phase 2. -/
def applyTransitions (fails : List String) (pa : String) :
    List (String × Pod) → List (String × DrainState) → Phase3Out
  | pods, [] => ⟨false, [], [], pods, []⟩
  | pods, (a, s) :: rest =>
    if s = DrainState.finished ∧ a = pa then
      applyTransitions fails pa pods rest
    else
      let ackHere := decide (s = DrainState.acknowledged)
      match List.lookup a pods with
      | none =>
        let r := applyTransitions fails pa pods rest
        ⟨ackHere || r.acknowledged, r.events, r.updates, r.pods, r.errs⟩
      | some pod =>
        match updateDrainStatus pod s with
        | none =>
          let r := applyTransitions fails pa pods rest
          ⟨ackHere || r.acknowledged, r.events, r.updates, r.pods, r.errs⟩
        | some (p2, issued) =>
          let r := applyTransitions fails pa (setPod a p2 pods) rest
          let failed := issued && fails.contains a
          ⟨ackHere || r.acknowledged,
            (if failed then [⟨EventType.warning, "UpdateFailed", a⟩] else []) ++
              r.events,
            (if issued then [(a, s)] else []) ++ r.updates,
            r.pods,
            (if failed then [a] else []) ++ r.errs⟩

/-- Phase 4 of the pass (disableFastShutdown): for every pod whose
alias has a tablet record, consult the safe-upgrade gate for its mysqld
container image against the desired image; a gate error or a failed
fetch command aborts with that error, a needed safe upgrade issues the
command and records a normal event. -/
def disableFastShutdownPhase (fails : List String) (desiredImage : String)
    (tablets : List (String × Tablet)) :
    List (String × Pod) → Except String (List Event)
  | [] => Except.ok []
  | (a, pod) :: rest =>
    match List.lookup a tablets with
    | none => disableFastShutdownPhase fails desiredImage tablets rest
    | some _ =>
      match safeMysqldUpgrade pod.mysqldImage desiredImage with
      | Except.error e => Except.error e
      | Except.ok needsSafe =>
        if needsSafe then
          if fails.contains a then
            Except.error ("failed to disable fast shutdown")
          else
            match disableFastShutdownPhase fails desiredImage tablets rest with
            | Except.error e => Except.error e
            | Except.ok evs =>
              Except.ok (⟨EventType.normal, "MySQL_Upgrade", a⟩ :: evs)
        else disableFastShutdownPhase fails desiredImage tablets rest

/-- Lookup in the drain state maps with the zero value of the Go map
access for a missing key. Modelled from the spec: the zero value of the
drain State type is the not-draining state, in particular it is not the
finished state. -/
def lookupD (m : List (String × DrainState)) (k : String) : DrainState :=
  (List.lookup k m).getD DrainState.notDraining

/-- The inputs of one reconcile pass: the shard object, the outcomes of
the three reads of the read phase, and the injected outcomes of the
external calls of the pass (pods whose annotation update fails, pods
whose fast-shutdown command fails, probe responses in arrival order,
and whether the reparent call fails). -/
structure PassInput where
  vts : VitessShard
  listResult : Except String (List Pod)
  shardResult : Except String Shard
  tabletsResult : Except String (List (String × Tablet))
  updateFails : List String
  fetchFails : List String
  probeResponses : List ProbeResult
  reparentFails : Bool
deriving DecidableEq, Repr

/-- The observable outcome of one reconcile pass: emitted events,
issued annotation updates as pairs of pod alias and target state, the
final in-memory pods, whether a reparent was attempted, and the
reconcile result. -/
structure PassOutput where
  events : List Event
  updates : List (String × DrainState)
  pods : List (String × Pod)
  reparentAttempted : Bool
  result : RecResult
deriving DecidableEq, Repr

/-- Phases 2 to 5 of the pass, after the reads and gates: clear or
snapshot drain markers, short-circuit on nothing-to-do or an aborting
drain, apply the state machine, run the safe-upgrade phase, check
handover eligibility and reparent to a candidate primary. -/
def passMain (inp : PassInput) (pods0 : List (String × Pod)) (shard : Shard)
    (pa : String) (tablets : List (String × Tablet)) : PassOutput :=
  let ph2 := phase2Clear inp.updateFails pods0
  if ph2.drains.isEmpty then
    ⟨ph2.events, ph2.updates, ph2.pods, false, builderResult ph2.errs false⟩
  else if ph2.aborting then
    ⟨ph2.events ++ [⟨EventType.warning, "AbortingDrain",
        "detected that we are aborting drain"⟩],
      ph2.updates, ph2.pods, false, builderResult ph2.errs false⟩
  else
    let transitions := drain.StateTransitions ph2.drains
    let ph3 := applyTransitions inp.updateFails pa ph2.pods transitions
    let errs := ph2.errs ++ ph3.errs
    match disableFastShutdownPhase inp.fetchFails inp.vts.mysqldImage tablets
        ph3.pods with
    | Except.error e =>
      ⟨ph2.events ++ ph3.events ++
          [⟨EventType.warning, "MysqldSafeUpgradeFailed", e⟩],
        ph2.updates ++ ph3.updates, ph3.pods, false, RecResult.error⟩
    | Except.ok evs4 =>
      let baseEvents := ph2.events ++ ph3.events ++ evs4
      let baseUpdates := ph2.updates ++ ph3.updates
      if ph3.acknowledged ∧ lookupD ph2.drains pa ≠ DrainState.finished then
        ⟨baseEvents ++ [⟨EventType.normal, "NotReparentingPrimary",
            "We have acknowledged a drain this loop"⟩],
          baseUpdates, ph3.pods, false, builderResult errs false⟩
      else if lookupD ph2.drains pa ≠ DrainState.finished ∧
          lookupD transitions pa ≠ DrainState.finished then
        ⟨baseEvents ++ [⟨EventType.normal, "NotReparentingPrimary",
            "We are not marking primary as finished"⟩],
          baseUpdates, ph3.pods, false, builderResult errs false⟩
      else
        match candidatePrimary shard tablets ph3.pods inp.vts.usingExternal
            inp.probeResponses with
        | none =>
          ⟨baseEvents ++ [⟨EventType.warning, "DrainBlocked",
              "no suitable primary candidate"⟩],
            baseUpdates, ph3.pods, false, builderResult errs true⟩
        | some _ =>
          let ev : Event :=
            if inp.reparentFails then
              ⟨EventType.warning, "PlannedReparentFailed", ""⟩
            else ⟨EventType.normal, "PlannedReparent", ""⟩
          ⟨baseEvents ++ [ev], baseUpdates, ph3.pods, true,
            builderResult errs false⟩

/-- The gates of the pass after a successful read phase: build the
alias-to-pod index, refuse to act on an unhealthy shard or a shard
without a primary, then run the main phases. -/
def passAfterReads (inp : PassInput) (items : List Pod) (shard : Shard)
    (tablets : List (String × Tablet)) : PassOutput :=
  let pods0 := items.map (fun p => (p.aliasStr, p))
  match isShardHealthy inp.vts with
  | some _ =>
    ⟨[⟨EventType.warning, "NotReconcilingDrain",
        "Shard is in an unhealthy state"⟩], [], pods0, false, RecResult.done⟩
  | none =>
    match shard.primaryAlias with
    | none =>
      ⟨[⟨EventType.warning, "NotReconcilingDrain",
          "Shard does not have a primary"⟩], [], pods0, false, RecResult.done⟩
    | some pa => passMain inp pods0 shard pa tablets

/-- reconcileDrain as a function of the pass input: the read phase
first (a failed pod list is an error result, a failed topology read is
a retry-after-delay result), then the gates and main phases. -/
def reconcileDrainPass (inp : PassInput) : PassOutput :=
  match inp.listResult with
  | Except.error e =>
    ⟨[⟨EventType.warning, "ListFailed", e⟩], [], [], false, RecResult.error⟩
  | Except.ok items =>
    match inp.shardResult with
    | Except.error e =>
      ⟨[⟨EventType.warning, "TopoGetFailed", e⟩], [], [], false,
        RecResult.requeueAfter⟩
    | Except.ok shard =>
      match inp.tabletsResult with
      | Except.error e =>
        ⟨[⟨EventType.warning, "TopoGetFailed", e⟩], [], [], false,
          RecResult.requeueAfter⟩
      | Except.ok tablets => passAfterReads inp items shard tablets

/-- Every annotation update issued by phase 2 targets the not-draining
state: the clearing loop never writes a marker. -/
theorem phase2Clear_updates (fails : List String) (ps : List (String × Pod)) :
    ∀ u ∈ (phase2Clear fails ps).updates, u.2 = DrainState.notDraining := by
  induction ps with
  | nil => intro u hu; simp [phase2Clear] at hu
  | cons e rest ih =>
    obtain ⟨a, p⟩ := e
    intro u hu
    simp only [phase2Clear] at hu
    by_cases hst : p.started = true
    · rw [if_pos hst] at hu
      exact ih u hu
    · rw [if_neg hst] at hu
      cases hud : updateDrainStatus p DrainState.notDraining with
      | none =>
        simp only [hud] at hu
        exact ih u hu
      | some pb =>
        obtain ⟨p2, issued⟩ := pb
        simp only [hud] at hu
        simp only [List.mem_append] at hu
        rcases hu with hu | hu
        · split at hu
          · rw [List.mem_singleton] at hu
            rw [hu]
          · cases hu
        · exact ih u hu

/-- Phase 3 never issues the update pairing the primary alias with the
finished state. -/
theorem applyTransitions_no_primary_finished (fails : List String) (pa : String) :
    ∀ pods ts, ((pa, DrainState.finished) : String × DrainState) ∉
      (applyTransitions fails pa pods ts).updates := by
  intro pods ts
  induction ts generalizing pods with
  | nil => intro h; simp [applyTransitions] at h
  | cons e rest ih =>
    obtain ⟨a, s⟩ := e
    intro h
    simp only [applyTransitions] at h
    by_cases hsk : s = DrainState.finished ∧ a = pa
    · rw [if_pos hsk] at h
      exact ih pods h
    · rw [if_neg hsk] at h
      cases hlk : List.lookup a pods with
      | none =>
        simp only [hlk] at h
        exact ih pods h
      | some pod =>
        simp only [hlk] at h
        cases hud : updateDrainStatus pod s with
        | none =>
          simp only [hud] at h
          exact ih pods h
        | some pb =>
          obtain ⟨p2, issued⟩ := pb
          simp only [hud] at h
          simp only [List.mem_append] at h
          rcases h with h | h
          · split at h
            · rw [List.mem_singleton] at h
              have heq : pa = a ∧ DrainState.finished = s := Prod.mk.injEq .. ▸ h
              exact hsk ⟨heq.2.symm, heq.1.symm⟩
            · cases h
          · exact ih (setPod a p2 pods) h

/-- Phase 2 raises the aborting flag whenever some listed pod carries
an acknowledged or finished marker without a started marker. -/
theorem phase2Clear_aborting (fails : List String) (ps : List (String × Pod))
    (hex : ∃ e ∈ ps, e.2.started = false ∧
      (e.2.acknowledged = true ∨ e.2.finished = true)) :
    (phase2Clear fails ps).aborting = true := by
  induction ps with
  | nil => simp at hex
  | cons e rest ih =>
    obtain ⟨a, p⟩ := e
    simp only [phase2Clear]
    obtain ⟨x, hx, hcond⟩ := hex
    rcases List.mem_cons.mp hx with hx | hx
    · subst hx
      have hst : p.started = false := hcond.1
      rw [if_neg (by simp [hst])]
      have habort : (p.acknowledged || p.finished) = true := by
        rcases hcond.2 with h | h
        · have h2 : p.acknowledged = true := h
          simp [h2]
        · have h2 : p.finished = true := h
          simp [h2]
      cases hud : updateDrainStatus p DrainState.notDraining with
      | none => simp [hud, habort]
      | some pb =>
        obtain ⟨p2, issued⟩ := pb
        simp [hud, habort]
    · have hr := ih ⟨x, hx, hcond⟩
      by_cases hst : p.started = true
      · rw [if_pos hst]
        exact hr
      · rw [if_neg hst]
        cases hud : updateDrainStatus p DrainState.notDraining with
        | none => simp [hud, hr]
        | some pb =>
          obtain ⟨p2, issued⟩ := pb
          simp [hud, hr]

/-- Every event of phase 2 has the aborting-drain or update-failed
reason. -/
theorem phase2Clear_events_reason (fails : List String)
    (ps : List (String × Pod)) :
    ∀ ev ∈ (phase2Clear fails ps).events,
      ev.reason = "AbortingDrain" ∨ ev.reason = "UpdateFailed" := by
  induction ps with
  | nil => intro ev hev; simp [phase2Clear] at hev
  | cons e rest ih =>
    obtain ⟨a, p⟩ := e
    intro ev hev
    simp only [phase2Clear] at hev
    by_cases hst : p.started = true
    · rw [if_pos hst] at hev
      exact ih ev hev
    · rw [if_neg hst] at hev
      cases hud : updateDrainStatus p DrainState.notDraining with
      | none =>
        simp only [hud] at hev
        simp only [List.mem_append] at hev
        rcases hev with hev | hev
        · split at hev
          · rw [List.mem_singleton] at hev
            rw [hev]
            exact Or.inl rfl
          · cases hev
        · exact ih ev hev
      | some pb =>
        obtain ⟨p2, issued⟩ := pb
        simp only [hud] at hev
        simp only [List.mem_append] at hev
        rcases hev with (hev | hev) | hev
        · split at hev
          · rw [List.mem_singleton] at hev
            rw [hev]
            exact Or.inl rfl
          · cases hev
        · split at hev
          · rw [List.mem_singleton] at hev
            rw [hev]
            exact Or.inr rfl
          · cases hev
        · exact ih ev hev

/-- Every event of phase 3 has the update-failed reason. -/
theorem applyTransitions_events_reason (fails : List String) (pa : String) :
    ∀ pods ts, ∀ ev ∈ (applyTransitions fails pa pods ts).events,
      ev.reason = "UpdateFailed" := by
  intro pods ts
  induction ts generalizing pods with
  | nil => intro ev hev; simp [applyTransitions] at hev
  | cons e rest ih =>
    obtain ⟨a, s⟩ := e
    intro ev hev
    simp only [applyTransitions] at hev
    by_cases hsk : s = DrainState.finished ∧ a = pa
    · rw [if_pos hsk] at hev
      exact ih pods ev hev
    · rw [if_neg hsk] at hev
      cases hlk : List.lookup a pods with
      | none =>
        simp only [hlk] at hev
        exact ih pods ev hev
      | some pod =>
        simp only [hlk] at hev
        cases hud : updateDrainStatus pod s with
        | none =>
          simp only [hud] at hev
          exact ih pods ev hev
        | some pb =>
          obtain ⟨p2, issued⟩ := pb
          simp only [hud] at hev
          simp only [List.mem_append] at hev
          rcases hev with hev | hev
          · split at hev
            · rw [List.mem_singleton] at hev
              rw [hev]
            · cases hev
          · exact ih (setPod a p2 pods) ev hev

/-- Every event of a successful phase 4 has the upgrade reason. -/
theorem disableFastShutdownPhase_events_reason (fails : List String)
    (img : String) (tablets : List (String × Tablet)) :
    ∀ ps evs, disableFastShutdownPhase fails img tablets ps = Except.ok evs →
      ∀ ev ∈ evs, ev.reason = "MySQL_Upgrade" := by
  intro ps
  induction ps with
  | nil =>
    intro evs h ev hev
    simp only [disableFastShutdownPhase] at h
    cases h
    cases hev
  | cons e rest ih =>
    obtain ⟨a, pod⟩ := e
    intro evs h ev hev
    simp only [disableFastShutdownPhase] at h
    cases hlk : List.lookup a tablets with
    | none =>
      rw [hlk] at h
      exact ih evs h ev hev
    | some tb =>
      rw [hlk] at h
      cases hsu : safeMysqldUpgrade pod.mysqldImage img with
      | error e2 => rw [hsu] at h; cases h
      | ok needsSafe =>
        rw [hsu] at h
        cases needsSafe with
        | false =>
          simp only [if_neg] at h
          exact ih evs h ev hev
        | true =>
          simp only [if_pos] at h
          by_cases hfa : fails.contains a = true
          · rw [if_pos hfa] at h
            cases h
          · rw [if_neg hfa] at h
            cases hrec : disableFastShutdownPhase fails img tablets rest with
            | error e2 => rw [hrec] at h; cases h
            | ok evs2 =>
              rw [hrec] at h
              cases h
              rcases List.mem_cons.mp hev with hev | hev
              · rw [hev]
              · exact ih evs2 hrec ev hev

/-- The main phases never issue the update pairing the primary alias
with the finished state. -/
theorem passMain_no_primary_finished (inp : PassInput)
    (pods0 : List (String × Pod)) (shard : Shard) (pa : String)
    (tablets : List (String × Tablet)) :
    ((pa, DrainState.finished) : String × DrainState) ∉
      (passMain inp pods0 shard pa tablets).updates := by
  intro h
  have h2 := phase2Clear_updates inp.updateFails pods0
  have h3 := applyTransitions_no_primary_finished inp.updateFails pa
  have hboth : ∀ hm : (pa, DrainState.finished) ∈
      (phase2Clear inp.updateFails pods0).updates ++
      (applyTransitions inp.updateFails pa
        (phase2Clear inp.updateFails pods0).pods
        (drain.StateTransitions (phase2Clear inp.updateFails pods0).drains)).updates,
      False := by
    intro hm
    rcases List.mem_append.mp hm with hm | hm
    · exact absurd (h2 _ hm) (fun hh => DrainState.noConfusion hh)
    · exact h3 _ _ hm
  simp only [passMain] at h
  split at h
  · exact absurd (h2 _ h) (fun hh => DrainState.noConfusion hh)
  · split at h
    · exact absurd (h2 _ h) (fun hh => DrainState.noConfusion hh)
    · split at h
      · exact hboth h
      · split at h
        · exact hboth h
        · split at h
          · exact hboth h
          · split at h
            · exact hboth h
            · exact hboth h

/-- The main phases emit no event with the not-reconciling reason. -/
theorem passMain_events_reason (inp : PassInput) (pods0 : List (String × Pod))
    (shard : Shard) (pa : String) (tablets : List (String × Tablet)) :
    ∀ ev ∈ (passMain inp pods0 shard pa tablets).events,
      ev.reason ≠ "NotReconcilingDrain" := by
  intro ev hev
  have h2 := phase2Clear_events_reason inp.updateFails pods0
  have h3 := applyTransitions_events_reason inp.updateFails pa
    (phase2Clear inp.updateFails pods0).pods
    (drain.StateTransitions (phase2Clear inp.updateFails pods0).drains)
  have hof2 : ev ∈ (phase2Clear inp.updateFails pods0).events →
      ev.reason ≠ "NotReconcilingDrain" := by
    intro hm
    rcases h2 ev hm with h | h <;> simp [h]
  have hof3 : ev ∈ (applyTransitions inp.updateFails pa
      (phase2Clear inp.updateFails pods0).pods
      (drain.StateTransitions (phase2Clear inp.updateFails pods0).drains)).events →
      ev.reason ≠ "NotReconcilingDrain" := by
    intro hm
    rw [h3 ev hm]
    decide
  simp only [passMain] at hev
  split at hev
  · exact hof2 hev
  · split at hev
    · rcases List.mem_append.mp hev with hm | hm
      · exact hof2 hm
      · rw [List.mem_singleton] at hm
        rw [hm]
        decide
    · split at hev
      · rcases List.mem_append.mp hev with hm | hm
        · rcases List.mem_append.mp hm with hm2 | hm2
          · exact hof2 hm2
          · exact hof3 hm2
        · rw [List.mem_singleton] at hm
          rw [hm]
          exact (by decide :
            ("MysqldSafeUpgradeFailed" : String) ≠ "NotReconcilingDrain")
      · rename_i evs4 heq4
        have hof4 : ev ∈ evs4 → ev.reason ≠ "NotReconcilingDrain" := by
          intro hm
          rw [disableFastShutdownPhase_events_reason inp.fetchFails
            inp.vts.mysqldImage tablets _ evs4 heq4 ev hm]
          decide
        have hofBase : ev ∈ (phase2Clear inp.updateFails pods0).events ++
            (applyTransitions inp.updateFails pa
              (phase2Clear inp.updateFails pods0).pods
              (drain.StateTransitions
                (phase2Clear inp.updateFails pods0).drains)).events ++ evs4 →
            ev.reason ≠ "NotReconcilingDrain" := by
          intro hm
          rcases List.mem_append.mp hm with hm | hm
          · rcases List.mem_append.mp hm with hm2 | hm2
            · exact hof2 hm2
            · exact hof3 hm2
          · exact hof4 hm
        split at hev
        · rcases List.mem_append.mp hev with hm | hm
          · exact hofBase hm
          · rw [List.mem_singleton] at hm
            rw [hm]
            decide
        · split at hev
          · rcases List.mem_append.mp hev with hm | hm
            · exact hofBase hm
            · rw [List.mem_singleton] at hm
              rw [hm]
              decide
          · split at hev
            · rcases List.mem_append.mp hev with hm | hm
              · exact hofBase hm
              · rw [List.mem_singleton] at hm
                rw [hm]
                decide
            · rcases List.mem_append.mp hev with hm | hm
              · exact hofBase hm
              · rw [List.mem_singleton] at hm
                rw [hm]
                split
                · decide
                · decide

/- ### Concrete pass inputs -/

/-- A pod with an acknowledged marker but no started marker: the
drainer withdrew its request mid-flight. -/
def abortPod : Pod := ⟨"cell-1", false, true, false, true, "", ""⟩

/-- A pass over a healthy shard with primary cell-0 whose only pod is
the partially drained abortPod. -/
def abortInput : PassInput :=
  ⟨⟨[], false, ""⟩, Except.ok [abortPod], Except.ok ⟨some ("cell-0")⟩,
    Except.ok [], [], [], [], false⟩

/-- A pass whose pod list read fails. -/
def listFailInput : PassInput :=
  ⟨⟨[], false, ""⟩, Except.error ("boom"), Except.ok ⟨none⟩, Except.ok [],
    [], [], [], false⟩

/-- A pass whose shard record read fails. -/
def shardFailInput : PassInput :=
  ⟨⟨[], false, ""⟩, Except.ok [], Except.error ("down"), Except.ok [],
    [], [], [], false⟩

/-- A pass whose tablet map read fails. -/
def tabletsFailInput : PassInput :=
  ⟨⟨[], false, ""⟩, Except.ok [], Except.ok ⟨none⟩, Except.error ("down"),
    [], [], [], false⟩

/-- A pass over a healthy shard whose primary pod is itself mid-drain
at the acknowledged stage, so the state machine proposes the finished
state for the primary alias. -/
def primaryDrainInput : PassInput :=
  ⟨⟨[], false, ""⟩,
    Except.ok [⟨"cell-0", true, true, false, true, "", ""⟩],
    Except.ok ⟨some ("cell-0")⟩, Except.ok [], [], [], [], false⟩

/-- A pass over a shard with an empty tracked-tablet status map but an
existing pod. -/
def emptyStatusInput : PassInput :=
  ⟨⟨[], false, ""⟩, Except.ok [readyPod ("cell-9")],
    Except.ok ⟨some ("cell-0")⟩, Except.ok [], [], [], [], false⟩

/- ### Branch equations of the pass -/

/-- The pass outcome when the pod list read fails. -/
theorem reconcileDrainPass_list_error (inp : PassInput) (e : String)
    (hl : inp.listResult = Except.error e) :
    reconcileDrainPass inp =
      ⟨[⟨EventType.warning, "ListFailed", e⟩], [], [], false,
        RecResult.error⟩ := by
  unfold reconcileDrainPass
  rw [hl]

/-- The pass outcome when the shard record read fails. -/
theorem reconcileDrainPass_shard_error (inp : PassInput) (items : List Pod)
    (e : String) (hl : inp.listResult = Except.ok items)
    (hs : inp.shardResult = Except.error e) :
    reconcileDrainPass inp =
      ⟨[⟨EventType.warning, "TopoGetFailed", e⟩], [], [], false,
        RecResult.requeueAfter⟩ := by
  unfold reconcileDrainPass
  rw [hl, hs]

/-- The pass outcome when the tablet map read fails. -/
theorem reconcileDrainPass_tablets_error (inp : PassInput) (items : List Pod)
    (shard : Shard) (e : String) (hl : inp.listResult = Except.ok items)
    (hs : inp.shardResult = Except.ok shard)
    (ht : inp.tabletsResult = Except.error e) :
    reconcileDrainPass inp =
      ⟨[⟨EventType.warning, "TopoGetFailed", e⟩], [], [], false,
        RecResult.requeueAfter⟩ := by
  unfold reconcileDrainPass
  rw [hl, hs, ht]

/-- The pass proceeds to the gates when all three reads succeed. -/
theorem reconcileDrainPass_reads_ok (inp : PassInput) (items : List Pod)
    (shard : Shard) (tablets : List (String × Tablet))
    (hl : inp.listResult = Except.ok items)
    (hs : inp.shardResult = Except.ok shard)
    (ht : inp.tabletsResult = Except.ok tablets) :
    reconcileDrainPass inp = passAfterReads inp items shard tablets := by
  unfold reconcileDrainPass
  rw [hl, hs, ht]

/-- The gate outcome on an unhealthy shard. -/
theorem passAfterReads_unhealthy (inp : PassInput) (items : List Pod)
    (shard : Shard) (tablets : List (String × Tablet)) (x : String)
    (hh : isShardHealthy inp.vts = some x) :
    passAfterReads inp items shard tablets =
      ⟨[⟨EventType.warning, "NotReconcilingDrain",
          "Shard is in an unhealthy state"⟩], [],
        items.map (fun p => (p.aliasStr, p)), false, RecResult.done⟩ := by
  unfold passAfterReads
  rw [hh]

/-- The gate outcome on a shard without a primary. -/
theorem passAfterReads_noprimary (inp : PassInput) (items : List Pod)
    (shard : Shard) (tablets : List (String × Tablet))
    (hh : isShardHealthy inp.vts = none)
    (hpa : shard.primaryAlias = none) :
    passAfterReads inp items shard tablets =
      ⟨[⟨EventType.warning, "NotReconcilingDrain",
          "Shard does not have a primary"⟩], [],
        items.map (fun p => (p.aliasStr, p)), false, RecResult.done⟩ := by
  unfold passAfterReads
  rw [hh, hpa]

/-- The gates pass through to the main phases on a healthy shard with a
primary. -/
theorem passAfterReads_healthy (inp : PassInput) (items : List Pod)
    (shard : Shard) (tablets : List (String × Tablet)) (pa : String)
    (hh : isShardHealthy inp.vts = none)
    (hpa : shard.primaryAlias = some pa) :
    passAfterReads inp items shard tablets =
      passMain inp (items.map (fun p => (p.aliasStr, p))) shard pa tablets := by
  unfold passAfterReads
  rw [hh, hpa]

/-- When phase 2 raises the aborting flag, the main phases issue only
not-draining clearing updates and attempt no reparent. -/
theorem passMain_aborting (inp : PassInput) (pods0 : List (String × Pod))
    (shard : Shard) (pa : String) (tablets : List (String × Tablet))
    (hab : (phase2Clear inp.updateFails pods0).aborting = true) :
    (∀ u ∈ (passMain inp pods0 shard pa tablets).updates,
      u.2 = DrainState.notDraining) ∧
    (passMain inp pods0 shard pa tablets).reparentAttempted = false := by
  simp only [passMain, hab]
  split
  · exact ⟨fun u hu => phase2Clear_updates _ _ u hu, rfl⟩
  · exact ⟨fun u hu => phase2Clear_updates _ _ u hu, rfl⟩

/- ### The claims on the pass -/

/-- Claim C1: no reconcile pass ever issues the annotation update that
would pair the alias of the current primary with the finished drain
state: the pair is skipped even when the state machine proposes it. -/
theorem primary_never_marked_finished (inp : PassInput) (shard : Shard)
    (pa : String) (hs : inp.shardResult = Except.ok shard)
    (hp : shard.primaryAlias = some pa) :
    ((pa, DrainState.finished) : String × DrainState) ∉
      (reconcileDrainPass inp).updates := by
  cases hl : inp.listResult with
  | error e =>
    rw [reconcileDrainPass_list_error inp e hl]
    intro h
    simp at h
  | ok items =>
    cases ht : inp.tabletsResult with
    | error e =>
      rw [reconcileDrainPass_tablets_error inp items shard e hl hs ht]
      intro h
      simp at h
    | ok tablets =>
      rw [reconcileDrainPass_reads_ok inp items shard tablets hl hs ht]
      cases hh : isShardHealthy inp.vts with
      | some x =>
        rw [passAfterReads_unhealthy inp items shard tablets x hh]
        intro h
        simp at h
      | none =>
        rw [passAfterReads_healthy inp items shard tablets pa hh hp]
        exact passMain_no_primary_finished inp _ shard pa tablets

/-- Claim C1 witness: with the primary pod itself acknowledged for
drain, so that the state machine proposes finished for the primary, the
pass still issues no finished update for the primary alias. -/
theorem primary_never_marked_finished_witness :
    ((("cell-0"), DrainState.finished) : String × DrainState) ∉
      (reconcileDrainPass primaryDrainInput).updates :=
  primary_never_marked_finished primaryDrainInput ⟨some ("cell-0")⟩
    ("cell-0") rfl rfl

/-- Claim C2 counterexample: a pass in the aborting-drain condition (a
pod carries the acknowledged marker with no started marker) still
modifies that pod: the clearing loop issues a not-draining annotation
update for it, so the pass does not perform zero marker updates. -/
theorem aborting_drain_updates_counterexample :
    (abortPod.started = false ∧
      (abortPod.acknowledged = true ∨ abortPod.finished = true)) ∧
    abortInput.listResult = Except.ok [abortPod] ∧
    (reconcileDrainPass abortInput).updates =
      [(("cell-1"), DrainState.notDraining)] ∧
    (reconcileDrainPass abortInput).updates ≠ [] := by
  decide

/-- Claim C2 (amended): in a pass where some listed pod carries an
acknowledged or finished marker without a started marker, every
annotation update the pass issues is a clearing update to the
not-draining state (no acknowledged or finished marker is written to
any pod) and no reparent is attempted. -/
theorem aborting_drain_freeze (inp : PassInput) (items : List Pod)
    (hl : inp.listResult = Except.ok items)
    (hab : ∃ p ∈ items, p.started = false ∧
      (p.acknowledged = true ∨ p.finished = true)) :
    (∀ u ∈ (reconcileDrainPass inp).updates, u.2 = DrainState.notDraining) ∧
    (reconcileDrainPass inp).reparentAttempted = false := by
  cases hsr : inp.shardResult with
  | error e =>
    rw [reconcileDrainPass_shard_error inp items e hl hsr]
    exact ⟨fun u hu => absurd hu (by simp), rfl⟩
  | ok shard =>
    cases ht : inp.tabletsResult with
    | error e =>
      rw [reconcileDrainPass_tablets_error inp items shard e hl hsr ht]
      exact ⟨fun u hu => absurd hu (by simp), rfl⟩
    | ok tablets =>
      rw [reconcileDrainPass_reads_ok inp items shard tablets hl hsr ht]
      cases hh : isShardHealthy inp.vts with
      | some x =>
        rw [passAfterReads_unhealthy inp items shard tablets x hh]
        exact ⟨fun u hu => absurd hu (by simp), rfl⟩
      | none =>
        cases hpa : shard.primaryAlias with
        | none =>
          rw [passAfterReads_noprimary inp items shard tablets hh hpa]
          exact ⟨fun u hu => absurd hu (by simp), rfl⟩
        | some pa =>
          rw [passAfterReads_healthy inp items shard tablets pa hh hpa]
          apply passMain_aborting
          apply phase2Clear_aborting
          obtain ⟨p, hp2, hc⟩ := hab
          exact ⟨(p.aliasStr, p), List.mem_map_of_mem _ hp2, hc⟩

/-- Claim C2 witness: the aborting pass over abortPod only issues
not-draining clearing updates and attempts no reparent. -/
theorem aborting_drain_freeze_witness :
    (∀ u ∈ (reconcileDrainPass abortInput).updates,
      u.2 = DrainState.notDraining) ∧
    (reconcileDrainPass abortInput).reparentAttempted = false :=
  aborting_drain_freeze abortInput [abortPod] rfl
    ⟨abortPod, List.mem_singleton.mpr rfl, by decide⟩

/-- Claim C4 counterexample: when the pod list read fails, the pass
returns the error result that fails the controller loop, not the
retry-after-delay result the claim asserts for every read failure. -/
theorem list_failure_error_counterexample :
    listFailInput.listResult = Except.error ("boom") ∧
    (reconcileDrainPass listFailInput).result = RecResult.error ∧
    RecResult.error ≠ RecResult.requeueAfter := by
  decide

/-- Claim C4 (amended): a failed topology read (shard record or tablet
map) makes the pass emit a warning event and return the
retry-after-fixed-delay result, while a failed pod list makes it emit a
warning event and return an error result. -/
theorem read_failure_results (inp : PassInput) :
    (∀ e, inp.listResult = Except.error e →
      (reconcileDrainPass inp).result = RecResult.error ∧
      (⟨EventType.warning, "ListFailed", e⟩ : Event) ∈
        (reconcileDrainPass inp).events) ∧
    (∀ items e, inp.listResult = Except.ok items →
      inp.shardResult = Except.error e →
      (reconcileDrainPass inp).result = RecResult.requeueAfter ∧
      (⟨EventType.warning, "TopoGetFailed", e⟩ : Event) ∈
        (reconcileDrainPass inp).events) ∧
    (∀ items shard e, inp.listResult = Except.ok items →
      inp.shardResult = Except.ok shard →
      inp.tabletsResult = Except.error e →
      (reconcileDrainPass inp).result = RecResult.requeueAfter ∧
      (⟨EventType.warning, "TopoGetFailed", e⟩ : Event) ∈
        (reconcileDrainPass inp).events) := by
  refine ⟨?_, ?_, ?_⟩
  · intro e he
    rw [reconcileDrainPass_list_error inp e he]
    exact ⟨rfl, List.mem_singleton.mpr rfl⟩
  · intro items e hl he
    rw [reconcileDrainPass_shard_error inp items e hl he]
    exact ⟨rfl, List.mem_singleton.mpr rfl⟩
  · intro items shard e hl hs ht
    rw [reconcileDrainPass_tablets_error inp items shard e hl hs ht]
    exact ⟨rfl, List.mem_singleton.mpr rfl⟩

/-- Claim C4 witness: the three read-failure inputs yield the amended
outcomes. -/
theorem read_failure_results_witness :
    ((reconcileDrainPass listFailInput).result = RecResult.error ∧
      (⟨EventType.warning, "ListFailed", "boom"⟩ : Event) ∈
        (reconcileDrainPass listFailInput).events) ∧
    ((reconcileDrainPass shardFailInput).result = RecResult.requeueAfter ∧
      (⟨EventType.warning, "TopoGetFailed", "down"⟩ : Event) ∈
        (reconcileDrainPass shardFailInput).events) ∧
    ((reconcileDrainPass tabletsFailInput).result = RecResult.requeueAfter ∧
      (⟨EventType.warning, "TopoGetFailed", "down"⟩ : Event) ∈
        (reconcileDrainPass tabletsFailInput).events) :=
  ⟨(read_failure_results listFailInput).1 ("boom") rfl,
    (read_failure_results shardFailInput).2.1 [] ("down") rfl rfl,
    (read_failure_results tabletsFailInput).2.2 [] ⟨none⟩ ("down") rfl rfl rfl⟩

/-- Claim C10: the shard health gate judges health solely from the
externally maintained per-tablet status map: it reports healthy
exactly when every tracked entry is marked Available; in particular an
empty status map is vacuously healthy, and a pass over such a shard
never takes the unhealthy-shard refusal, however many pods exist. -/
theorem shard_health_from_status_only :
    (∀ vts : VitessShard, isShardHealthy vts = none ↔
      ∀ e ∈ vts.tabletStatuses, e.2 = Condition.ctrue) ∧
    (∀ inp : PassInput, inp.vts.tabletStatuses = [] →
      isShardHealthy inp.vts = none ∧
      ∀ ev ∈ (reconcileDrainPass inp).events,
        ¬(ev.reason = "NotReconcilingDrain" ∧
          ev.msg = "Shard is in an unhealthy state")) := by
  constructor
  · intro vts
    unfold isShardHealthy
    rw [Option.map_eq_none', List.find?_eq_none]
    constructor
    · intro h e he
      have := h e he
      simpa using this
    · intro h e he
      simp [h e he]
  · intro inp hempty
    have hnone : isShardHealthy inp.vts = none := by
      unfold isShardHealthy
      rw [hempty]
      rfl
    refine ⟨hnone, ?_⟩
    intro ev hev
    cases hl : inp.listResult with
    | error e =>
      rw [reconcileDrainPass_list_error inp e hl] at hev
      rw [List.mem_singleton] at hev
      rw [hev]
      simp
    | ok items =>
      cases hs : inp.shardResult with
      | error e =>
        rw [reconcileDrainPass_shard_error inp items e hl hs] at hev
        rw [List.mem_singleton] at hev
        rw [hev]
        simp
      | ok shard =>
        cases ht : inp.tabletsResult with
        | error e =>
          rw [reconcileDrainPass_tablets_error inp items shard e hl hs ht] at hev
          rw [List.mem_singleton] at hev
          rw [hev]
          simp
        | ok tablets =>
          rw [reconcileDrainPass_reads_ok inp items shard tablets hl hs ht] at hev
          cases hpa : shard.primaryAlias with
          | none =>
            rw [passAfterReads_noprimary inp items shard tablets hnone hpa] at hev
            rw [List.mem_singleton] at hev
            rw [hev]
            intro hcon
            exact absurd hcon.2 (by decide)
          | some pa =>
            rw [passAfterReads_healthy inp items shard tablets pa hnone hpa] at hev
            intro hcon
            exact passMain_events_reason inp _ shard pa tablets ev hev hcon.1

/-- Claim C10 witness: the gate on an empty status map reports healthy,
and the pass over emptyStatusInput, which lists a pod, never emits the
unhealthy-shard refusal event. -/
theorem shard_health_from_status_only_witness :
    (isShardHealthy ⟨[], false, ""⟩ = none ↔
      ∀ e ∈ ([] : List (String × Condition)), e.2 = Condition.ctrue) ∧
    (isShardHealthy emptyStatusInput.vts = none ∧
      ∀ ev ∈ (reconcileDrainPass emptyStatusInput).events,
        ¬(ev.reason = "NotReconcilingDrain" ∧
          ev.msg = "Shard is in an unhealthy state")) :=
  ⟨shard_health_from_status_only.1 ⟨[], false, ""⟩,
    shard_health_from_status_only.2 emptyStatusInput rfl⟩
